import Mathlib

/-!
Verification of the capture-to-artifact pipeline of the recorder app.

The development shallowly embeds the two source components that carry the
algorithmic core:

* `VoiceRecorder` (source file `part_000`): the `convertToMP3` audio
  transcoder (decode, stereo downmix, 16-bit quantization, windowed MP3
  encoding with a final flush, and the fall-back-to-raw-bytes error policy),
  together with its recording session handlers (`startRecording`,
  `togglePause`, `stopRecording`, `ondataavailable`).
* `CameraRecorder` (source file `CameraRecorder.js`): chunk accumulation
  (`handleDataAvailable`), the frame-stepping mirrored-video download loop
  (`handleDownload`), the upload guard (`handleUpload`), and `toggleCamera`.

Floating-point sample values are embedded as rationals (`ℚ`); JavaScript's
`Int16Array` element conversion truncates toward zero, embedded as
`ratTrunc`.  Byte sequences are embedded as `List ℕ` and media chunks as
`List (List ℕ)`.
-/

namespace CaptureCore

/-! ## Quantization (`convertToMP3`, part_000 lines 128-132)

```js
const s = Math.max(-1, Math.min(1, audioData[i]));
int16Array[i] = s < 0 ? s * 0x8000 : s * 0x7FFF;
```

The assignment into an `Int16Array` converts the float with truncation
toward zero; for the clipped range `[-1, 1]` the scaled value lies in
`[-32768, 32767]`, so no 16-bit wrap-around occurs. -/

/-- Truncation toward zero, the conversion JavaScript applies when storing a
number into an `Int16Array` (before the 2^16 wrap, which is inert on the
range produced here). -/
def ratTrunc (q : ℚ) : ℤ :=
  if q < 0 then ⌈q⌉ else ⌊q⌋

/-- The clipping step `Math.max(-1, Math.min(1, s))`. -/
def clip (s : ℚ) : ℚ :=
  max (-1) (min 1 s)

/-- One sample of the float-to-int16 conversion loop:
`s < 0 ? s * 0x8000 : s * 0x7FFF` applied to the clipped sample. -/
def quantizeSample (s : ℚ) : ℤ :=
  let c := clip s
  if c < 0 then ratTrunc (c * 32768) else ratTrunc (c * 32767)

/-- The whole conversion loop, producing the `int16Array` contents. -/
def quantizeAll (audioData : List ℚ) : List ℤ :=
  audioData.map quantizeSample

/-! ## Downmix (`convertToMP3`, part_000 lines 110-125)

```js
if (numberOfChannels === 2) {
  ... audioData[i] = (leftChannel[i] + rightChannel[i]) / 2 ...
} else {
  audioData = audioBuffer.getChannelData(0);
}
```

Channels are embedded as the list of per-channel sample arrays (in a
well-formed decoded buffer all channels have the buffer's length, so the
averaging loop over `length` is `List.zipWith`).  `getChannelData(0)` throws
exactly when the buffer has no channel 0; the thrown case surfaces as
`none` and is caught by `convertToMP3`'s fallback handler. -/

/-- Downmix step of `convertToMP3`: average exactly-two channels, otherwise
take channel 0 (`getChannelData(0)`), which fails only when no channel
exists. -/
def downmixChannels : List (List ℚ) → Option (List ℚ)
  | [l, r] => some (List.zipWith (fun a b => (a + b) / 2) l r)
  | [] => none
  | c :: _ => some c

/-! ## Streaming encoder driver (`convertToMP3`, part_000 lines 135-161)

```js
const mp3Encoder = new lamejs.Mp3Encoder(1, sampleRate, 128);
const mp3Data = [];
const chunkSize = 1152;
for (let i = 0; i < int16Array.length; i += chunkSize) {
  const chunk = int16Array.subarray(i, i + chunkSize);
  const mp3buf = mp3Encoder.encodeBuffer(chunk);
  if (mp3buf.length > 0) { mp3Data.push(mp3buf); }
}
const mp3buf = mp3Encoder.flush();
if (mp3buf.length > 0) { mp3Data.push(mp3buf); }
... combine all fragments into one Uint8Array ...
```

The lamejs encoder is external; the driver is embedded against an abstract
stateful streaming encoder interface. -/

/-- Abstract interface of a stateful streaming encoder (lamejs
`Mp3Encoder`): `encodeBuffer` consumes one window of int16 samples and
returns the updated state with the emitted bytes; `flush` finalizes. -/
structure StreamEncoder (σ : Type) where
  encodeBuffer : σ → List ℤ → σ × List ℕ
  flush : σ → List ℕ

/-- The `for (i = 0; i < len; i += chunkSize)` subarray stepping: splits a
list into consecutive windows of `n` elements, the last window possibly
shorter.  (`n = 0`, impossible in the source where `n = 1152`, is guarded to
an empty result.) -/
def chunksOf : ℕ → List α → List (List α)
  | _, [] => []
  | 0, _ :: _ => []
  | n + 1, a :: as => (a :: as).take (n + 1) :: chunksOf (n + 1) (as.drop n)
termination_by _ l => l.length
decreasing_by
  simp only [List.length_drop, List.length_cons]
  omega

/-- The encoding loop body over the precomputed windows: feeds each window
in order, pushing the emitted fragment onto `mp3Data` only when it is
nonempty, exactly as the source's `if (mp3buf.length > 0)` guard does. -/
def feedWindows (E : StreamEncoder σ) : σ → List (List ℤ) → σ × List (List ℕ)
  | st, [] => (st, [])
  | st, w :: ws =>
    let r := E.encodeBuffer st w
    let rest := feedWindows E r.1 ws
    (rest.1, (if 0 < r.2.length then [r.2] else []) ++ rest.2)

/-- The windowed encode of `convertToMP3`: feed the int16 samples in windows
of 1152, flush once, push the trailing fragment if nonempty, and combine
all fragments in emission order (the `Uint8Array` copy loop). -/
def mp3Encode (E : StreamEncoder σ) (st0 : σ) (samples : List ℤ) : List ℕ :=
  let fed := feedWindows E st0 (chunksOf 1152 samples)
  let fl := E.flush fed.1
  (fed.2 ++ if 0 < fl.length then [fl] else []).flatten

/-- Reference formulation of the same loop without the nonempty-fragment
guard: records every window's emission.  Used to state that the source's
guard does not change the assembled bytes. -/
def encodeSteps (E : StreamEncoder σ) : σ → List (List ℤ) → σ × List (List ℕ)
  | st, [] => (st, [])
  | st, w :: ws =>
    let r := E.encodeBuffer st w
    let rest := encodeSteps E r.1 ws
    (rest.1, r.2 :: rest.2)

/-! ## The full audio transcode (`convertToMP3`, part_000 lines 94-175)

`decodeAudioData` and the `Mp3Encoder` constructor are external effects that
can throw; they are parameters returning `Option`.  Every throw inside the
`try` block lands in the `catch`, which returns the original blob:

```js
} catch (err) {
  // Fallback: return original blob if conversion fails
  return audioBlob;
}
``` -/

/-- Result of `decodeAudioData`: the per-channel sample arrays and the
native sample rate (`numberOfChannels` is `channels.length`; in a
well-formed buffer every channel has the buffer's `length`). -/
structure DecodedAudio where
  channels : List (List ℚ)
  sampleRate : ℕ

/-- The `convertToMP3` pipeline: decode, downmix, quantize, windowed encode
with flush; any failure (decode throw, missing channel 0, encoder
construction throw) falls back to returning the original raw bytes. -/
def convertToMP3 (E : StreamEncoder σ)
    (decode : List ℕ → Option DecodedAudio)
    (encInit : ℕ → ℕ → ℕ → Option σ)
    (raw : List ℕ) : List ℕ :=
  match decode raw with
  | none => raw
  | some buf =>
    match downmixChannels buf.channels with
    | none => raw
    | some audioData =>
      match encInit 1 buf.sampleRate 128 with
      | none => raw
      | some st0 => mp3Encode E st0 (quantizeAll audioData)

/-! ## Constant-bitrate encoder model (for the window-boundary guarantee) -/

/-- Modelled from the spec: the lamejs `Mp3Encoder` itself is an external
library absent from the sources.  Per the spec it is a streaming
constant-bitrate encoder: it buffers incoming samples, emits a fixed-size
byte frame for every 1152 buffered samples, and `flush` emits one final
frame exactly when samples are still buffered.  The state is the number of
buffered-but-unencoded samples; emitted bytes are zero-filled since only
counts are specified. -/
def cbrEncoder (frameBytes : ℕ) : StreamEncoder ℕ where
  encodeBuffer st w :=
    ((st + w.length) % 1152, List.replicate (((st + w.length) / 1152) * frameBytes) 0)
  flush st := if st = 0 then [] else List.replicate frameBytes 0

/-- Total bytes obtained by feeding the windows `ws` to the CBR encoder
model in order, then flushing once. -/
def cbrTotalBytes (frameBytes : ℕ) (ws : List (List ℤ)) : ℕ :=
  let r := encodeSteps (cbrEncoder frameBytes) 0 ws
  r.2.flatten.length + ((cbrEncoder frameBytes).flush r.1).length

/-! ## Mirrored-video download loop (`CameraRecorder.js` lines 69-117)

```js
if (recordedChunks.length) {
  const blob = new Blob(recordedChunks, { type: "video/webm" });
  ...
  const processFrame = () => {
    if (video.currentTime < video.duration) {
      ctx.save(); ctx.scale(-1, 1); ctx.translate(-canvas.width, 0);
      ctx.drawImage(video, 0, 0); ctx.restore();
      video.currentTime += 1/30;
      requestAnimationFrame(processFrame);
    } else {
      canvas.toBlob((flippedBlob) => { ...download flippedBlob... });
    }
  };
  video.currentTime = 0;
  processFrame();
}
```

A frame is a pixel grid (rows of pixels); `ctx.scale(-1,1)` plus the
translate draws the frame mirrored about the vertical center axis, i.e.
with every pixel row reversed.  Each `drawImage` paints over the single
shared canvas; the final `canvas.toBlob` snapshots that one canvas. -/

/-- A decoded video frame: rows of pixels (pixel values abstract). -/
abbrev Frame := List (List ℤ)

/-- The canvas draw `scale(-1,1); translate(-width,0); drawImage`: a
horizontal mirror, reversing every pixel row. -/
def mirrorFrame (f : Frame) : Frame :=
  f.map List.reverse

/-- The recursive `processFrame` loop: while `currentTime < duration`, draw
the mirrored frame at `currentTime` over the canvas and advance by `1/30`;
once `currentTime >= duration`, the canvas (holding whatever was drawn
last) is the result. -/
def processFrame (frames : ℚ → Frame) (duration : ℚ) (canvas : Frame) (pos : ℚ) : Frame :=
  if pos < duration then
    processFrame frames duration (mirrorFrame (frames pos)) (pos + 1 / 30)
  else canvas
termination_by (⌈30 * (duration - pos)⌉).toNat
decreasing_by
  rename_i h
  have e : 30 * (duration - (pos + 1 / 30)) = 30 * (duration - pos) - 1 := by ring
  rw [e, Int.ceil_sub_one]
  have hp : (0 : ℤ) < ⌈30 * (duration - pos)⌉ := Int.ceil_pos.mpr (by linarith)
  omega

/-- Number of loop iterations of `processFrame` started from position 0:
the count of naturals `k` with `k / 30 < duration`. -/
def numFrames (duration : ℚ) : ℕ :=
  (⌈30 * duration⌉).toNat

/-- Stated from the spec for comparison: the claimed final artifact, the
list of ALL mirrored sampled frames assembled in sampling order. -/
def specAssembly (duration : ℚ) (frames : ℚ → Frame) : List Frame :=
  (List.range (numFrames duration)).map fun k => mirrorFrame (frames ((k : ℚ) / 30))

/-- `handleDownload`: guarded on a nonempty chunk list; decodes the
concatenated blob (duration and per-instant frame access are the decoder's,
abstracted as a parameter) and runs the mirror loop from position 0 on a
fresh canvas.  An empty chunk list produces no artifact at all. -/
def handleDownload (decodeVideo : List ℕ → ℚ × (ℚ → Frame)) (canvas0 : Frame)
    (chunks : List (List ℕ)) : Option Frame :=
  if 0 < chunks.length then
    let v := decodeVideo chunks.flatten
    some (processFrame v.2 v.1 canvas0 0)
  else none

/-! ## Upload guard (`CameraRecorder.js` lines 119-150) -/

/-- Observable outcome of `handleUpload`: either the early return that only
sets `uploadStatus`, or a POST of the assembled blob. -/
inductive UploadOutcome where
  | rejected (status : String)
  | posted (payload : List ℕ)
deriving DecidableEq

/-- `handleUpload`: with no recorded chunks it sets the status
`'No video to upload'` and returns without any request; otherwise it posts
the concatenated blob. -/
def handleUpload (recordedChunks : List (List ℕ)) : UploadOutcome :=
  if recordedChunks.length = 0 then .rejected "No video to upload"
  else .posted recordedChunks.flatten

/-! ## Chunk delivery (`CameraRecorder.js` lines 28-32, part_000 213-217)

```js
if (data.size > 0) { setRecordedChunks((prev) => prev.concat(data)); }
``` -/

/-- The `dataavailable` handler: a zero-length chunk is ignored, a
positive-length chunk is appended at the end of the buffer. -/
def handleDataAvailable (recordedChunks : List (List ℕ)) (data : List ℕ) : List (List ℕ) :=
  if 0 < data.length then recordedChunks ++ [data] else recordedChunks

/-! ## VoiceRecorder session handlers (part_000 lines 178-278)

The `MediaRecorder` state (`'recording' | 'paused' | 'inactive'`) together
with the component state mutated by the handlers.  `startRecording` is
modelled on its success path (permission granted, `getUserMedia` resolves):
it clears the error, allocates a fresh recorder, empties the chunk list and
starts recording, with no guard on the current state. -/

/-- The `MediaRecorder.state` values. -/
inductive RecState where
  | recording
  | paused
  | inactive
deriving DecidableEq

/-- VoiceRecorder component state touched by the session handlers. -/
structure VRState where
  recorder : Option RecState
  isRecording : Bool
  isPaused : Bool
  chunks : List (List ℕ)
  error : Option String
deriving DecidableEq

/-- `startRecording` (success path): `setError(null)`, fresh recorder with
`audioChunksRef.current = []`, `start()`, `setIsRecording(true)`,
`setIsPaused(false)` — unconditionally, whatever the previous state. -/
def startRecording (_s : VRState) : VRState :=
  { recorder := some .recording
    isRecording := true
    isPaused := false
    chunks := []
    error := none }

/-- `togglePause`: pauses a recording recorder, resumes a paused one, and
does nothing at all (no error set) in every other state. -/
def togglePause (s : VRState) : VRState :=
  match s.recorder with
  | some .recording => { s with recorder := some .paused, isPaused := true }
  | some .paused => { s with recorder := some .recording, isPaused := false }
  | _ => s

/-- `stopRecording`: stops unless the recorder is missing or already
`'inactive'`; invalid invocations do nothing and set no error. -/
def stopRecording (s : VRState) : VRState :=
  match s.recorder with
  | some .inactive => s
  | none => s
  | some _ => { s with recorder := some .inactive, isRecording := false, isPaused := false }

/-! ## Camera switch (`CameraRecorder.js` lines 176-182) -/

/-- CameraRecorder component state touched by `toggleCamera`. -/
structure CamState where
  facingMode : String
  recordedChunks : List (List ℕ)
  recordedVideo : Option String
  uploadStatus : String
deriving DecidableEq

/-- `toggleCamera`: flips the facing mode and clears the recorded chunks,
the prepared video URL and the upload status. -/
def toggleCamera (s : CamState) : CamState :=
  { s with
    facingMode := if s.facingMode = "user" then "environment" else "user"
    recordedChunks := []
    recordedVideo := none
    uploadStatus := "" }

/-! ## Window lemmas -/

/-- Splitting an empty list yields no windows. -/
@[simp] theorem chunksOf_nil (n : ℕ) : chunksOf n ([] : List α) = [] := by
  rw [chunksOf]

/-- Unfolding lemma for a positive window size, stated so that it applies to
numeric literals such as 1152. -/
theorem chunksOf_cons (n : ℕ) (hn : 0 < n) (a : α) (as : List α) :
    chunksOf n (a :: as) = (a :: as).take n :: chunksOf n ((a :: as).drop n) := by
  obtain ⟨m, rfl⟩ := Nat.exists_eq_succ_of_ne_zero hn.ne'
  rw [chunksOf, List.drop_succ_cons]

/-- The windows reassemble to the original list. -/
theorem chunksOf_flatten (n : ℕ) (l : List α) : (chunksOf (n + 1) l).flatten = l := by
  cases l with
  | nil => simp
  | cons a as =>
    rw [chunksOf, List.flatten_cons, chunksOf_flatten n (as.drop n),
      ← List.drop_succ_cons (n := n), List.take_append_drop]
termination_by l.length
decreasing_by
  simp only [List.length_drop, List.length_cons]
  omega

/-- Every window is nonempty and no longer than the window size. -/
theorem chunksOf_mem_length (n : ℕ) (l : List α) :
    ∀ w ∈ chunksOf (n + 1) l, 0 < w.length ∧ w.length ≤ n + 1 := by
  cases l with
  | nil => simp
  | cons a as =>
    rw [chunksOf]
    intro w hw
    rcases List.mem_cons.mp hw with h | h
    · subst h
      simp only [List.length_take, List.length_cons]
      omega
    · exact chunksOf_mem_length n (as.drop n) w h
termination_by l.length
decreasing_by
  simp only [List.length_drop, List.length_cons]
  omega

/-- A nonempty list yields a nonempty window list. -/
theorem chunksOf_ne_nil (n : ℕ) (a : α) (as : List α) :
    chunksOf (n + 1) (a :: as) ≠ [] := by
  rw [chunksOf]
  exact List.cons_ne_nil _ _

/-- Every window except possibly the last has exactly the window size. -/
theorem chunksOf_dropLast_length (n : ℕ) (l : List α) :
    ∀ w ∈ (chunksOf (n + 1) l).dropLast, w.length = n + 1 := by
  cases l with
  | nil => simp
  | cons a as =>
    rw [chunksOf]
    rcases h : chunksOf (n + 1) (as.drop n) with _ | ⟨b, bs⟩
    · simp
    · rw [← h, List.dropLast_cons_of_ne_nil (by rw [h]; exact List.cons_ne_nil _ _)]
      intro w hw
      rcases List.mem_cons.mp hw with hww | hww
      · subst hww
        have hd : as.drop n ≠ [] := by
          intro hnil
          rw [hnil] at h
          simp at h
        have hlen : n < as.length := by
          by_contra hc
          exact hd (List.drop_eq_nil_of_le (by omega))
        simp only [List.length_take, List.length_cons]
        omega
      · exact chunksOf_dropLast_length n (as.drop n) w hww
termination_by l.length
decreasing_by
  simp only [List.length_drop, List.length_cons]
  omega

/-! ## Claim C1 — quantization -/

/-- The clipped sample is at least `-1`. -/
theorem neg_one_le_clip (s : ℚ) : -1 ≤ clip s := le_max_left _ _

/-- The clipped sample is at most `1`. -/
theorem clip_le_one (s : ℚ) : clip s ≤ 1 := max_le (by norm_num) (min_le_left _ _)

/-- Samples at or below `-1` clip to `-1`. -/
theorem clip_of_le_neg_one {s : ℚ} (h : s ≤ -1) : clip s = -1 := by
  unfold clip
  rw [min_eq_right (h.trans (by norm_num)), max_eq_left h]

/-- Samples at or above `1` clip to `1`. -/
theorem clip_of_one_le {s : ℚ} (h : 1 ≤ s) : clip s = 1 := by
  unfold clip
  rw [min_eq_left h, max_eq_right (by norm_num)]

/-- Saturated high samples quantize to `32767`. -/
theorem quantizeSample_of_one_le {s : ℚ} (h : 1 ≤ s) : quantizeSample s = 32767 := by
  unfold quantizeSample
  rw [clip_of_one_le h]
  rw [if_neg (by norm_num), ratTrunc, if_neg (by norm_num),
    show (1 : ℚ) * 32767 = ((32767 : ℤ) : ℚ) by norm_num, Int.floor_intCast]

/-- Saturated low samples quantize to `-32768`. -/
theorem quantizeSample_of_le_neg_one {s : ℚ} (h : s ≤ -1) : quantizeSample s = -32768 := by
  unfold quantizeSample
  rw [clip_of_le_neg_one h]
  rw [if_pos (by norm_num), ratTrunc, if_pos (by norm_num),
    show (-1 : ℚ) * 32768 = ((-32768 : ℤ) : ℚ) by norm_num, Int.ceil_intCast]

/-- Every quantized sample fits the signed 16-bit range. -/
theorem quantizeSample_range (s : ℚ) :
    -32768 ≤ quantizeSample s ∧ quantizeSample s ≤ 32767 := by
  have h1 : -1 ≤ clip s := neg_one_le_clip s
  have h2 : clip s ≤ 1 := clip_le_one s
  unfold quantizeSample ratTrunc
  by_cases hc : clip s < 0
  · rw [if_pos hc, if_pos (mul_neg_of_neg_of_pos hc (by norm_num))]
    constructor
    · have hle : ((-32768 : ℤ) : ℚ) ≤ clip s * 32768 := by push_cast; nlinarith
      have := Int.ceil_mono hle
      rwa [Int.ceil_intCast] at this
    · have : ⌈clip s * 32768⌉ ≤ 0 := Int.ceil_le.mpr
        (by push_cast; nlinarith [mul_neg_of_neg_of_pos hc (show (0 : ℚ) < 32768 by norm_num)])
      omega
  · push_neg at hc
    rw [if_neg (by simp [hc]), if_neg (by push_neg; exact mul_nonneg hc (by norm_num))]
    constructor
    · have : (0 : ℤ) ≤ ⌊clip s * 32767⌋ :=
        Int.floor_nonneg.mpr (mul_nonneg hc (by norm_num))
      omega
    · have hle : clip s * 32767 ≤ ((32767 : ℤ) : ℚ) := by push_cast; nlinarith
      have := Int.floor_mono hle
      rwa [Int.floor_intCast] at this

/-- C1: each decoded sample is quantized by clipping to `[-1, 1]` and
scaling by 32768 (negative) or 32767 (non-negative); in particular `1.0`
maps to `32767`, `-1.0` maps to `-32768`, values beyond the clip range
saturate to those endpoints, every output fits in a signed 16-bit integer,
and the buffer conversion applies this per sample. -/
theorem quantization_correct :
    quantizeSample 1 = 32767 ∧
    quantizeSample (-1) = -32768 ∧
    (∀ s : ℚ, quantizeSample (max s 1) = 32767) ∧
    (∀ s : ℚ, quantizeSample (min s (-1)) = -32768) ∧
    (∀ s : ℚ, -32768 ≤ quantizeSample s ∧ quantizeSample s ≤ 32767) ∧
    (∀ audioData : List ℚ, quantizeAll audioData = audioData.map quantizeSample) :=
  ⟨quantizeSample_of_one_le le_rfl, quantizeSample_of_le_neg_one le_rfl,
    fun s => quantizeSample_of_one_le (le_max_right s 1),
    fun s => quantizeSample_of_le_neg_one (min_le_right s (-1)),
    quantizeSample_range, fun _ => rfl⟩

/-! ## Claim C2 — downmix -/

/-- Encoding a single sample through the windowed driver with the CBR
encoder model emits exactly one flush frame. -/
theorem mp3Encode_single (fb : ℕ) (hfb : 0 < fb) (q : ℤ) :
    mp3Encode (cbrEncoder fb) 0 [q] = List.replicate fb 0 := by
  unfold mp3Encode
  rw [chunksOf_cons 1152 (by norm_num)]
  simp [feedWindows, cbrEncoder, hfb]

/-- C2 counterexample: on a three-channel decoded buffer the transcode does
NOT fail — channel 0 passes through and the encoder output (here nonempty)
is returned instead of the raw fallback bytes. -/
theorem downmix_three_channel_counterexample :
    downmixChannels [[(1 : ℚ) / 2], [1 / 4], [1 / 8]] = some [(1 : ℚ) / 2] ∧
    convertToMP3 (cbrEncoder 1)
      (fun _ => some ⟨[[(1 : ℚ) / 2], [1 / 4], [1 / 8]], 44100⟩)
      (fun _ _ _ => some 0) [] = [0] ∧
    ([0] : List ℕ) ≠ ([] : List ℕ) := by
  refine ⟨rfl, ?_, by simp⟩
  show mp3Encode (cbrEncoder 1) 0 (quantizeAll [(1 : ℚ) / 2]) = [0]
  rw [show quantizeAll [(1 : ℚ) / 2] = [quantizeSample ((1 : ℚ) / 2)] from rfl,
    mp3Encode_single 1 (by norm_num)]
  rfl

/-- C2 amended: exactly-two-channel buffers are averaged sample-by-sample
(`L = [1, -1]`, `R = [1, 1]` yields `[1, 0]`), one-channel buffers pass
through unchanged, a buffer with NO channels fails (and triggers the
fallback), but any other channel count is not a failure: channel 0 passes
through unchanged. -/
theorem downmix_spec :
    (∀ l r : List ℚ, downmixChannels [l, r] =
      some (List.zipWith (fun a b => (a + b) / 2) l r)) ∧
    (∀ c : List ℚ, downmixChannels [c] = some c) ∧
    (∀ (c : List ℚ) (rest : List (List ℚ)), rest.length ≠ 1 →
      downmixChannels (c :: rest) = some c) ∧
    downmixChannels ([] : List (List ℚ)) = none ∧
    downmixChannels [[(1 : ℚ), -1], [1, 1]] = some [1, 0] := by
  refine ⟨fun l r => rfl, fun c => rfl, ?_, rfl, ?_⟩
  · intro c rest h
    match rest with
    | [] => rfl
    | [r] => simp at h
    | r :: x :: xs => rfl
  · show some _ = some _
    norm_num

/-- Witness for the amended C2 at a concrete four-channel buffer. -/
theorem downmix_spec_witness :
    downmixChannels [([] : List ℚ), [], [], []] = some ([] : List ℚ) :=
  downmix_spec.2.2.1 [] [[], [], []] (by decide)

/-! ## Claim C3 — fallback policy -/

/-- C3: any failure inside the transcode (decode throw, missing channel 0,
encoder construction throw) makes `convertToMP3` return exactly the
original raw bytes; the result is always either that unmodified fallback or
the fully encoded output, never a mixture, and the surrounding capture
continues with whichever of the two it gets. -/
theorem convertToMP3_fallback (E : StreamEncoder σ)
    (decode : List ℕ → Option DecodedAudio) (encInit : ℕ → ℕ → ℕ → Option σ)
    (raw : List ℕ) :
    (decode raw = none → convertToMP3 E decode encInit raw = raw) ∧
    (∀ buf, decode raw = some buf → downmixChannels buf.channels = none →
      convertToMP3 E decode encInit raw = raw) ∧
    (∀ buf, decode raw = some buf → encInit 1 buf.sampleRate 128 = none →
      convertToMP3 E decode encInit raw = raw) ∧
    (convertToMP3 E decode encInit raw = raw ∨
      ∃ buf audioData st0, decode raw = some buf ∧
        downmixChannels buf.channels = some audioData ∧
        encInit 1 buf.sampleRate 128 = some st0 ∧
        convertToMP3 E decode encInit raw = mp3Encode E st0 (quantizeAll audioData)) := by
  refine ⟨?_, ?_, ?_, ?_⟩
  · intro h
    simp only [convertToMP3, h]
  · intro buf hb hdm
    simp only [convertToMP3, hb, hdm]
  · intro buf hb hi
    rcases hdm : downmixChannels buf.channels with _ | audioData
    · simp only [convertToMP3, hb, hdm]
    · simp only [convertToMP3, hb, hdm, hi]
  · rcases hb : decode raw with _ | buf
    · exact Or.inl (by simp only [convertToMP3, hb])
    · rcases hdm : downmixChannels buf.channels with _ | audioData
      · exact Or.inl (by simp only [convertToMP3, hb, hdm])
      · rcases hi : encInit 1 buf.sampleRate 128 with _ | st0
        · exact Or.inl (by simp only [convertToMP3, hb, hdm, hi])
        · exact Or.inr ⟨buf, audioData, st0, rfl, hdm, hi,
            by simp only [convertToMP3, hb, hdm, hi]⟩

/-- Witness for C3 at a decoder that fails on the concrete input. -/
theorem convertToMP3_fallback_witness :
    convertToMP3 (cbrEncoder 1) (fun _ => none) (fun _ _ _ => none) [3, 7] = [3, 7] :=
  (convertToMP3_fallback (cbrEncoder 1) (fun _ => none) (fun _ _ _ => none) [3, 7]).1 rfl

/-! ## Claim C4 — windowed encoding structure -/

/-- The source's skip-empty-fragment guard does not change the final state
or the assembled bytes compared to recording every window's emission. -/
theorem feedWindows_flatten (E : StreamEncoder σ) (st : σ) (ws : List (List ℤ)) :
    (feedWindows E st ws).1 = (encodeSteps E st ws).1 ∧
    (feedWindows E st ws).2.flatten = (encodeSteps E st ws).2.flatten := by
  induction ws generalizing st with
  | nil => exact ⟨rfl, rfl⟩
  | cons w ws ih =>
    simp only [feedWindows, encodeSteps]
    obtain ⟨h1, h2⟩ := ih (E.encodeBuffer st w).1
    refine ⟨h1, ?_⟩
    by_cases hb : 0 < (E.encodeBuffer st w).2.length
    · simp [hb, h2]
    · have : (E.encodeBuffer st w).2 = [] :=
        List.eq_nil_of_length_eq_zero (by omega)
      simp [hb, h2, this]

/-- C4: the transcode feeds the quantized samples to a single encoder in
consecutive 1152-sample windows (all full except possibly the last,
reassembling to the input), appends each window's emission in window order,
flushes exactly once after the last window appending its bytes last, and
returns the concatenation in emission order. -/
theorem mp3Encode_structure (E : StreamEncoder σ) (st0 : σ) (samples : List ℤ) :
    mp3Encode E st0 samples =
      (encodeSteps E st0 (chunksOf 1152 samples)).2.flatten ++
        E.flush (encodeSteps E st0 (chunksOf 1152 samples)).1 ∧
    (chunksOf 1152 samples).flatten = samples ∧
    ((chunksOf 1152 samples).dropLast.all fun w => w.length == 1152) = true ∧
    ((chunksOf 1152 samples).all fun w =>
      decide (0 < w.length) && decide (w.length ≤ 1152)) = true := by
  refine ⟨?_, chunksOf_flatten 1151 samples, ?_, ?_⟩
  · unfold mp3Encode
    have h := feedWindows_flatten E st0 (chunksOf 1152 samples)
    rw [List.flatten_append, h.2, h.1]
    congr 1
    by_cases hf : 0 < (E.flush (encodeSteps E st0 (chunksOf 1152 samples)).1).length
    · simp [hf]
    · have : E.flush (encodeSteps E st0 (chunksOf 1152 samples)).1 = [] :=
        List.eq_nil_of_length_eq_zero (by omega)
      simp [hf, this]
  · rw [List.all_eq_true]
    intro w hw
    simpa using chunksOf_dropLast_length 1151 samples w hw
  · rw [List.all_eq_true]
    intro w hw
    have := chunksOf_mem_length 1151 samples w hw
    simp only [Bool.and_eq_true, decide_eq_true_eq]
    exact this

/-! ## Claim C5 — window-boundary independence (CBR encoder model) -/

/-- The CBR model's per-window step, as a projection equation. -/
theorem cbrEncoder_encodeBuffer (fb st : ℕ) (w : List ℤ) :
    (cbrEncoder fb).encodeBuffer st w =
      ((st + w.length) % 1152, List.replicate (((st + w.length) / 1152) * fb) 0) := rfl

/-- The CBR model's flush, as a projection equation. -/
theorem cbrEncoder_flush (fb st : ℕ) :
    (cbrEncoder fb).flush st = if st = 0 then [] else List.replicate fb 0 := rfl

/-- Feeding windows to the CBR encoder model leaves as state the total
consumed sample count modulo 1152 and emits one frame per full 1152
consumed samples, regardless of the window boundaries. -/
theorem encodeSteps_cbr (fb : ℕ) (ws : List (List ℤ)) :
    ∀ st : ℕ, st < 1152 →
      (encodeSteps (cbrEncoder fb) st ws).1 = (st + ws.flatten.length) % 1152 ∧
      (encodeSteps (cbrEncoder fb) st ws).2.flatten.length
        = ((st + ws.flatten.length) / 1152) * fb := by
  induction ws with
  | nil =>
    intro st hst
    simp [encodeSteps, Nat.mod_eq_of_lt hst, Nat.div_eq_of_lt hst]
  | cons w ws ih =>
    intro st hst
    obtain ⟨h1, h2⟩ := ih ((st + w.length) % 1152) (Nat.mod_lt _ (by norm_num))
    simp only [encodeSteps, cbrEncoder_encodeBuffer, List.flatten_cons,
      List.length_append, List.length_replicate, h1, h2]
    constructor
    · omega
    · rw [← Nat.add_mul]
      congr 1
      omega

/-- Closed form for the total emitted byte count of the CBR model: it is a
function of the total sample count and the per-frame byte size only. -/
theorem cbrTotalBytes_eq (fb : ℕ) (ws : List (List ℤ)) :
    cbrTotalBytes fb ws =
      (ws.flatten.length / 1152) * fb +
        (if ws.flatten.length % 1152 = 0 then 0 else fb) := by
  obtain ⟨h1, h2⟩ := encodeSteps_cbr fb ws 0 (by norm_num)
  unfold cbrTotalBytes
  simp only []
  rw [cbrEncoder_flush, h1, h2]
  simp only [Nat.zero_add]
  congr 1
  split <;> simp

/-- C5: with the spec's CBR encoder model, the driver's 1152-sample
windowing emits exactly as many bytes as feeding all samples as one window
followed by the same single flush, and in general the total emitted byte
count depends only on the total sample count — any two window splits of the
same sample sequence emit the same byte total. -/
theorem window_boundary_independence (fb : ℕ) (samples : List ℤ) :
    (mp3Encode (cbrEncoder fb) 0 samples).length = cbrTotalBytes fb [samples] ∧
    (∀ ws ws' : List (List ℤ), ws.flatten = ws'.flatten →
      cbrTotalBytes fb ws = cbrTotalBytes fb ws') := by
  have hsplit : ∀ ws ws' : List (List ℤ), ws.flatten = ws'.flatten →
      cbrTotalBytes fb ws = cbrTotalBytes fb ws' := by
    intro ws ws' h
    rw [cbrTotalBytes_eq, cbrTotalBytes_eq, h]
  refine ⟨?_, hsplit⟩
  have hA : (mp3Encode (cbrEncoder fb) 0 samples).length
      = cbrTotalBytes fb (chunksOf 1152 samples) := by
    unfold mp3Encode cbrTotalBytes
    have h := feedWindows_flatten (cbrEncoder fb) 0 (chunksOf 1152 samples)
    rw [List.flatten_append, List.length_append, h.2, h.1]
    congr 1
    by_cases hf : 0 <
        ((cbrEncoder fb).flush (encodeSteps (cbrEncoder fb) 0 (chunksOf 1152 samples)).1).length
    · simp [hf]
    · simp only [if_neg hf]
      simp only [List.flatten_nil, List.length_nil]
      omega
  rw [hA]
  exact hsplit _ _ (by simp [chunksOf_flatten 1151 samples])

/-- Witness for C5's boundary-independence clause at two concrete splits of
the same sample sequence. -/
theorem window_boundary_independence_witness :
    cbrTotalBytes 418 [[1, 2], [3]] = cbrTotalBytes 418 [[1], [2, 3]] :=
  (window_boundary_independence 418 []).2 [[1, 2], [3]] [[1], [2, 3]] (by decide)

/-! ## Claim C6 — video mirror loop -/

/-- Closed form of the `processFrame` loop: with
`m = ⌈30 * (duration - pos)⌉⁺` iterations remaining, the loop terminates
with the canvas untouched when `m = 0`, and otherwise the canvas ends up
holding only the mirror of the frame sampled at the LAST visited position
`pos + (m - 1) / 30` — every earlier draw is painted over. -/
theorem processFrame_closed (frames : ℚ → Frame) (duration : ℚ) (canvas : Frame) (pos : ℚ) :
    processFrame frames duration canvas pos =
      if (⌈30 * (duration - pos)⌉).toNat = 0 then canvas
      else mirrorFrame (frames (pos + (((⌈30 * (duration - pos)⌉).toNat - 1 : ℕ) : ℚ) / 30)) := by
  rw [processFrame]
  by_cases hp : pos < duration
  · rw [if_pos hp, processFrame_closed frames duration (mirrorFrame (frames pos)) (pos + 1 / 30)]
    have hpos : (0 : ℤ) < ⌈30 * (duration - pos)⌉ := Int.ceil_pos.mpr (by linarith)
    have hm : (⌈30 * (duration - pos)⌉).toNat ≠ 0 := by omega
    rw [if_neg hm]
    have step : ⌈30 * (duration - (pos + 1 / 30))⌉ = ⌈30 * (duration - pos)⌉ - 1 := by
      rw [show 30 * (duration - (pos + 1 / 30)) = 30 * (duration - pos) - 1 by ring,
        Int.ceil_sub_one]
    by_cases h0 : (⌈30 * (duration - (pos + 1 / 30))⌉).toNat = 0
    · rw [if_pos h0]
      have hm1 : (⌈30 * (duration - pos)⌉).toNat = 1 := by
        rw [step] at h0
        omega
      rw [hm1]
      norm_num
    · rw [if_neg h0]
      have hm2 : 2 ≤ (⌈30 * (duration - pos)⌉).toNat := by
        rw [step] at h0
        omega
      have hm' : (⌈30 * (duration - (pos + 1 / 30))⌉).toNat
          = (⌈30 * (duration - pos)⌉).toNat - 1 := by
        rw [step]
        omega
      rw [hm']
      congr 2
      obtain ⟨k, hk⟩ : ∃ k, (⌈30 * (duration - pos)⌉).toNat = k + 2 :=
        ⟨(⌈30 * (duration - pos)⌉).toNat - 2, by omega⟩
      rw [hk]
      push_cast
      ring
  · rw [if_neg hp]
    have hle : ⌈30 * (duration - pos)⌉ ≤ 0 := Int.ceil_le.mpr (by push_cast; nlinarith)
    rw [if_pos (by omega)]
termination_by (⌈30 * (duration - pos)⌉).toNat
decreasing_by
  have e : 30 * (duration - (pos + 1 / 30)) = 30 * (duration - pos) - 1 := by ring
  rw [e, Int.ceil_sub_one]
  have hq : (0 : ℤ) < ⌈30 * (duration - pos)⌉ := Int.ceil_pos.mpr (by linarith)
  omega

/-- The loop visits exactly the positions `k / 30` with `k < numFrames`. -/
theorem sampled_positions (duration : ℚ) (k : ℕ) :
    (k : ℚ) / 30 < duration ↔ k < numFrames duration := by
  unfold numFrames
  rw [div_lt_iff₀ (by norm_num : (0 : ℚ) < 30)]
  constructor
  · intro h
    have : (k : ℤ) < ⌈30 * duration⌉ := Int.lt_ceil.mpr (by push_cast; linarith)
    omega
  · intro h
    have : (k : ℤ) < ⌈30 * duration⌉ := by omega
    have := Int.lt_ceil.mp this
    push_cast at this
    linarith

/-- C6 amended: the loop samples exactly the positions `0, 1/30, 2/30, ...`
strictly below `duration` and terminates once the position reaches
`duration`; each sampled frame is drawn horizontally mirrored (row-reversed;
the mirror is an involution) onto the ONE shared canvas, painting over the
previous draw, and the final artifact is the single canvas snapshot — the
mirror of the LAST sampled frame (the untouched canvas when no position
qualifies) — not an assembly of all transformed frames. -/
theorem video_loop_spec (frames : ℚ → Frame) (duration : ℚ) (canvas0 : Frame) :
    (∀ k : ℕ, ((k : ℚ) / 30 < duration ↔ k < numFrames duration)) ∧
    processFrame frames duration canvas0 0 =
      (if numFrames duration = 0 then canvas0
       else mirrorFrame (frames (((numFrames duration - 1 : ℕ) : ℚ) / 30))) ∧
    (∀ f : Frame, mirrorFrame (mirrorFrame f) = f) := by
  refine ⟨fun k => sampled_positions duration k, ?_, ?_⟩
  · rw [processFrame_closed]
    unfold numFrames
    rw [show 30 * (duration - 0) = 30 * duration by ring]
    rcases Nat.eq_zero_or_pos (⌈30 * duration⌉).toNat with h | h
    · rw [if_pos h, if_pos h]
    · rw [if_neg (by omega), if_neg (by omega)]
      norm_num
  · intro f
    simp [mirrorFrame, List.map_map, Function.comp]

/-- Frame source used by the C6 counterexample. -/
def frameSrcA : ℚ → Frame := fun p => if p = 0 then [[0, 1]] else [[2, 3]]

/-- Second frame source for the C6 counterexample, differing from
`frameSrcA` only in the frame at position 0. -/
def frameSrcB : ℚ → Frame := fun p => if p = 0 then [[9, 9]] else [[2, 3]]

/-- C6 counterexample: for a 2-frame video the claimed final result — the
ordered assembly of ALL mirrored frames — differs between the two frame
sources `frameSrcA`/`frameSrcB` (they differ at position 0), yet the code's
loop produces the identical single final canvas for both: the first
sampled frame is painted over and is absent from the artifact, so the
final result cannot be the assembly of all transformed frames. -/
theorem video_loop_counterexample :
    processFrame frameSrcA (1 / 15) [] 0 = [[3, 2]] ∧
    processFrame frameSrcB (1 / 15) [] 0 = [[3, 2]] ∧
    specAssembly (1 / 15) frameSrcA = [[[1, 0]], [[3, 2]]] ∧
    specAssembly (1 / 15) frameSrcB = [[[9, 9]], [[3, 2]]] ∧
    [[[(1 : ℤ), 0]], [[3, 2]]] ≠ [[[(9 : ℤ), 9]], [[3, 2]]] := by
  have hceil : ⌈(30 : ℚ) * (1 / 15)⌉ = 2 := by
    rw [show (30 : ℚ) * (1 / 15) = ((2 : ℤ) : ℚ) by norm_num, Int.ceil_intCast]
  have hnum : numFrames (1 / 15) = 2 := by
    unfold numFrames
    rw [hceil]
    rfl
  have hA : ∀ frames : ℚ → Frame, processFrame frames (1 / 15) [] 0
      = mirrorFrame (frames (1 / 30)) := by
    intro frames
    rw [processFrame_closed]
    rw [show (30 : ℚ) * (1 / 15 - 0) = ((2 : ℤ) : ℚ) by norm_num, Int.ceil_intCast]
    norm_num
    rw [show Int.toNat 2 = 2 from rfl]
    norm_num
  have hspec : ∀ frames : ℚ → Frame, specAssembly (1 / 15) frames
      = [mirrorFrame (frames 0), mirrorFrame (frames (1 / 30))] := by
    intro frames
    unfold specAssembly
    rw [hnum]
    show [mirrorFrame (frames (((0 : ℕ) : ℚ) / 30)),
      mirrorFrame (frames (((1 : ℕ) : ℚ) / 30))] = _
    norm_num
  refine ⟨?_, ?_, ?_, ?_, by decide⟩
  · rw [hA]
    rw [show frameSrcA (1 / 30) = [[2, 3]] by unfold frameSrcA; norm_num]
    rfl
  · rw [hA]
    rw [show frameSrcB (1 / 30) = [[2, 3]] by unfold frameSrcB; norm_num]
    rfl
  · rw [hspec]
    rw [show frameSrcA (1 / 30) = [[2, 3]] by unfold frameSrcA; norm_num,
      show frameSrcA 0 = [[0, 1]] from if_pos rfl]
    rfl
  · rw [hspec]
    rw [show frameSrcB (1 / 30) = [[2, 3]] by unfold frameSrcB; norm_num,
      show frameSrcB 0 = [[9, 9]] from if_pos rfl]
    rfl

/-! ## Claim C7 — empty input handling -/

/-- C7 counterexample: on a zero-length chunk buffer the video download
produces no output at all (not an empty success artifact), and the upload
performs no request but sets the rejection status `'No video to upload'`
instead of succeeding with zero-length output. -/
theorem empty_input_counterexample :
    handleDownload (fun _ => (0, fun _ => [])) [] [] = none ∧
    (none : Option Frame) ≠ some ([] : Frame) ∧
    handleUpload [] = UploadOutcome.rejected "No video to upload" ∧
    UploadOutcome.rejected "No video to upload" ≠ UploadOutcome.posted [] :=
  ⟨rfl, by decide, rfl, by decide⟩

/-- C7 amended: the audio transcode on an empty buffer does succeed with
zero-length output (the decoder throws and the fallback returns the empty
input unchanged); the video download on an empty buffer is a guarded no-op
producing no artifact; the upload on an empty buffer performs no request
and reports the status `'No video to upload'`; none of the three crashes
the capture. -/
theorem empty_input_behaviour (σ : Type) :
    (∀ (E : StreamEncoder σ) (decode : List ℕ → Option DecodedAudio)
      (encInit : ℕ → ℕ → ℕ → Option σ), decode [] = none →
        convertToMP3 E decode encInit [] = []) ∧
    (∀ (decodeVideo : List ℕ → ℚ × (ℚ → Frame)) (canvas0 : Frame),
      handleDownload decodeVideo canvas0 [] = none) ∧
    handleUpload [] = UploadOutcome.rejected "No video to upload" := by
  refine ⟨?_, fun _ _ => rfl, rfl⟩
  intro E decode encInit h
  simp only [convertToMP3, h]

/-- Witness for the amended C7 with a concrete failing decoder. -/
theorem empty_input_behaviour_witness :
    convertToMP3 (cbrEncoder 1) (fun _ => none) (fun _ _ _ => some 0) [] = [] :=
  (empty_input_behaviour ℕ).1 (cbrEncoder 1) (fun _ => none) (fun _ _ _ => some 0) rfl

/-! ## Claim C8 — session state machine -/

/-- A session in the middle of recording, with one buffered chunk. -/
def recStateEx : VRState :=
  { recorder := some .recording
    isRecording := true
    isPaused := false
    chunks := [[1]]
    error := none }

/-- A freshly mounted idle session (no recorder allocated yet). -/
def idleStateEx : VRState :=
  { recorder := none
    isRecording := false
    isPaused := false
    chunks := []
    error := none }

/-- C8 counterexample: `togglePause` invoked while idle is indeed a silent
no-op but reports NO error (contradicting "reported as an error"), and
`startRecording` invoked while already recording is NOT a rejected no-op:
it empties the chunk buffer and restarts, again with no error reported. -/
theorem session_guard_counterexample :
    togglePause idleStateEx = idleStateEx ∧
    (togglePause idleStateEx).error = none ∧
    startRecording recStateEx ≠ recStateEx ∧
    (startRecording recStateEx).chunks = [] ∧
    recStateEx.chunks = [[1]] ∧
    (startRecording recStateEx).error = none :=
  ⟨rfl, rfl, by decide, rfl, rfl, rfl⟩

/-- C8 amended: `pause`/`resume`/`stop` invoked in a state where they are
invalid are silent no-ops — the session state and chunk buffer are
unchanged and nothing crashes — but no error is reported; and `start` has
no state guard at all: invoked in ANY state (including while recording) it
unconditionally clears the error, empties the chunk buffer and begins a
fresh recording rather than being rejected. -/
theorem session_transitions_spec :
    (∀ s : VRState, s.recorder = none → togglePause s = s ∧ stopRecording s = s) ∧
    (∀ s : VRState, s.recorder = some .inactive →
      togglePause s = s ∧ stopRecording s = s) ∧
    (∀ s : VRState, (togglePause s).chunks = s.chunks ∧ (togglePause s).error = s.error ∧
      (stopRecording s).chunks = s.chunks ∧ (stopRecording s).error = s.error) ∧
    (∀ s : VRState, startRecording s =
      { recorder := some .recording, isRecording := true, isPaused := false,
        chunks := [], error := none }) := by
  refine ⟨?_, ?_, ?_, fun _ => rfl⟩
  · intro s h
    exact ⟨by simp [togglePause, h], by simp [stopRecording, h]⟩
  · intro s h
    exact ⟨by simp [togglePause, h], by simp [stopRecording, h]⟩
  · intro s
    rcases hs : s.recorder with _ | r
    · simp [togglePause, stopRecording, hs]
    · cases r <;> simp [togglePause, stopRecording, hs]

/-- Witness for the amended C8 at the concrete idle session. -/
theorem session_transitions_spec_witness :
    togglePause idleStateEx = idleStateEx ∧ stopRecording idleStateEx = idleStateEx :=
  session_transitions_spec.1 idleStateEx rfl

/-! ## Claim C9 — chunk arrival order -/

/-- C9: a zero-length chunk leaves the buffer unchanged, a positive-length
chunk is appended at the end, and folding the handler over any arrival
sequence stores exactly the nonempty chunks in arrival order. -/
theorem chunk_append_spec :
    (∀ chunks : List (List ℕ), handleDataAvailable chunks [] = chunks) ∧
    (∀ (chunks : List (List ℕ)) (data : List ℕ), 0 < data.length →
      handleDataAvailable chunks data = chunks ++ [data]) ∧
    (∀ (init arrivals : List (List ℕ)),
      arrivals.foldl handleDataAvailable init =
        init ++ arrivals.filter fun d => decide (0 < d.length)) := by
  refine ⟨fun chunks => rfl, ?_, ?_⟩
  · intro chunks data h
    simp [handleDataAvailable, h]
  · intro init arrivals
    induction arrivals generalizing init with
    | nil => simp
    | cons d rest ih =>
      rw [List.foldl_cons, ih, List.filter_cons]
      by_cases h : 0 < d.length
      · simp [handleDataAvailable, h]
      · simp [handleDataAvailable, h]

/-- Witness for C9 at a concrete nonempty chunk. -/
theorem chunk_append_spec_witness :
    handleDataAvailable [[1]] [2, 3] = [[1]] ++ [[2, 3]] :=
  chunk_append_spec.2.1 [[1]] [2, 3] (by decide)

/-! ## Claim C10 — camera switch clears the recording -/

/-- A camera state holding a finished front-camera recording. -/
def camStateEx : CamState :=
  { facingMode := "user"
    recordedChunks := [[1]]
    recordedVideo := some "blob:demo"
    uploadStatus := "Video uploaded successfully!" }

/-- C10: switching cameras always empties the recorded chunk buffer,
discards the prepared video and upload status, and flips the facing mode;
consequently a pre-switch recording can never reach a later download
(guarded no-op) or upload (rejected with `'No video to upload'`), and the
preview guard `recordedChunks.length > 0` fails as well. -/
theorem toggleCamera_spec :
    (∀ s : CamState, (toggleCamera s).recordedChunks = [] ∧
      (toggleCamera s).recordedVideo = none ∧
      (toggleCamera s).uploadStatus = "" ∧
      (toggleCamera s).facingMode =
        (if s.facingMode = "user" then "environment" else "user")) ∧
    (∀ s : CamState,
      handleUpload (toggleCamera s).recordedChunks =
        UploadOutcome.rejected "No video to upload") ∧
    (∀ (s : CamState) (decodeVideo : List ℕ → ℚ × (ℚ → Frame)) (canvas0 : Frame),
      handleDownload decodeVideo canvas0 (toggleCamera s).recordedChunks = none) ∧
    (∀ s : CamState, s.facingMode = "user" ∨ s.facingMode = "environment" →
      (toggleCamera s).facingMode ≠ s.facingMode) := by
  refine ⟨fun s => ⟨rfl, rfl, rfl, rfl⟩, fun s => rfl, fun s _ _ => rfl, ?_⟩
  intro s h
  rcases h with h | h <;> · simp only [toggleCamera, h]; decide

/-- Witness for C10 at a concrete finished recording. -/
theorem toggleCamera_spec_witness :
    (toggleCamera camStateEx).facingMode ≠ camStateEx.facingMode :=
  toggleCamera_spec.2.2.2 camStateEx (Or.inl rfl)

end CaptureCore
